import Mathlib

/-!
Verification of the SuckCode agent orchestration engine against its
natural-language specification.

The development shallowly embeds the relevant Python source
(src/suckcode/suckcode.py, permissions.py, tools.py, mcp.py) in Lean:

* JSON values are the inductive `JVal`; the Python operations the source
  performs on them (`dict.get`, subscription, `in`, iteration, `+`,
  truthiness) are embedded with Python's semantics, returning
  `Except String` where the operation can raise (the `String` is the
  Python exception class name).  Uncaught exceptions propagate as
  `Except.error`.
* The stream decoder `_stream_response` is `runStream` over a list of
  already-framed server-sent-event lines: `json.loads` is abstracted as
  the classification of a data line into `SseLine.badJson` (parse
  failure) versus `SseLine.payload j` (parse success with value `j`);
  the SSE prefix test and the terminal sentinel are `SseLine.blank` and
  `SseLine.doneMark`.
* Permission state, the tool-execution phase of `agentic_loop`, the tool
  dispatcher `run_tool`, the `edit` tool, and the MCP client are embedded
  as pure functions with explicit state threading; the MCP connection's
  single shared inbound queue is the list `inbox` in arrival order, and
  a `queue.get` that would time out is modelled by an empty inbox at the
  moment of the wait.
* Tool-argument maps are embedded as the record `Args` of the keys the
  modelled code actually reads, with JSON string values (the tool schema
  declares string-typed fields).
-/

/-- A JSON value, as produced by `json.loads`. -/
inductive JVal where
  | null
  | bool (b : Bool)
  | num (n : Int)
  | str (s : String)
  | arr (xs : List JVal)
  | obj (kvs : List (String × JVal))

/-- First-match association-list lookup; the lists model Python dicts,
whose keys are unique. -/
def alookup {α : Type} (l : List (String × α)) (k : String) : Option α :=
  match l with
  | [] => none
  | (k2, v) :: rest => if k2 = k then some v else alookup rest k

/-- Python `d[k] = v`: update the key in place if present, else append. -/
def aset {α : Type} (l : List (String × α)) (k : String) (v : α) :
    List (String × α) :=
  if (alookup l k).isSome then
    l.map (fun p => if p.1 = k then (k, v) else p)
  else l ++ [(k, v)]

/-- Python `d.pop(k, None)`: remove the key. -/
def apop {α : Type} (l : List (String × α)) (k : String) :
    List (String × α) :=
  l.filter (fun p => p.1 ≠ k)

/-- Python truthiness of a JSON value. -/
def pyTruthy : JVal → Bool
  | .null => false
  | .bool b => b
  | .num n => n ≠ 0
  | .str s => s ≠ ""
  | .arr xs => ¬ xs.isEmpty
  | .obj kvs => ¬ kvs.isEmpty

/-- Python `x.get(k, dflt)`: only dicts have `.get`; on any other value
the attribute access raises. -/
def pyGet (j : JVal) (k : String) (dflt : JVal) : Except String JVal :=
  match j with
  | .obj kvs => .ok ((alookup kvs k).getD dflt)
  | _ => .error "AttributeError"

/-- Python `x[k]` for a string key. -/
def pySubStr (j : JVal) (k : String) : Except String JVal :=
  match j with
  | .obj kvs =>
    match alookup kvs k with
    | some v => .ok v
    | none => .error "KeyError"
  | .arr _ => .error "TypeError"
  | .str _ => .error "TypeError"
  | _ => .error "TypeError"

/-- Python list indexing semantics (negative indices wrap once). -/
def pyListGet {α : Type} (l : List α) (i : Int) : Option α :=
  if 0 ≤ i ∧ i < l.length then l.get? i.toNat
  else if - (l.length : Int) ≤ i ∧ i < 0 then l.get? (l.length + i).toNat
  else none

/-- Python list element replacement at an index (callers check range). -/
def pyListSet {α : Type} (l : List α) (i : Int) (v : α) : Option (List α) :=
  if 0 ≤ i ∧ i < l.length then some (l.set i.toNat v)
  else if - (l.length : Int) ≤ i ∧ i < 0 then some (l.set (l.length + i).toNat v)
  else none

/-- Python `x[0]` as used on the `choices` field. -/
def pyIndexZero (j : JVal) : Except String JVal :=
  match j with
  | .arr [] => .error "IndexError"
  | .arr (x :: _) => .ok x
  | .str s =>
    match s.data with
    | [] => .error "IndexError"
    | c :: _ => .ok (.str (String.mk [c]))
  | _ => .error "TypeError"

/-- Whether the first list is an initial segment of the second. -/
def leadMatch : List Char → List Char → Bool
  | [], _ => true
  | _ :: _, [] => false
  | p :: ps, c :: cs => p = c && leadMatch ps cs

/-- Python substring test `p in s` over the character list of `s`
(an empty pattern always matches). -/
def strInChars (p : List Char) : List Char → Bool
  | [] => p.isEmpty
  | c :: rest => leadMatch p (c :: rest) || strInChars p rest

/-- Python substring test `p in s`. -/
def strIn (p s : String) : Bool :=
  strInChars p.data s.data

/-- Python `k in x`: key test on dicts, membership on lists, substring on
strings, `TypeError` otherwise (the modelled code only tests string
literals for membership). -/
def pyContainsStr (j : JVal) (k : String) : Except String Bool :=
  match j with
  | .obj kvs => .ok ((alookup kvs k).isSome)
  | .arr xs => .ok (xs.any (fun x => match x with | .str s => s = k | _ => false))
  | .str s => .ok (strIn k s)
  | _ => .error "TypeError"

/-- Python iteration: lists yield elements, strings yield one-character
strings, dicts yield their keys, anything else raises. -/
def pyIter (j : JVal) : Except String (List JVal) :=
  match j with
  | .arr xs => .ok xs
  | .str s => .ok (s.data.map (fun c => .str (String.mk [c])))
  | .obj kvs => .ok (kvs.map (fun p => .str p.1))
  | _ => .error "TypeError"

/-- Python `a + b` on JSON values (only the combinations the decoder can
reach; mixed types raise). -/
def pyAdd (a b : JVal) : Except String JVal :=
  match a, b with
  | .str x, .str y => .ok (.str (x ++ y))
  | .num x, .num y => .ok (.num (x + y))
  | .arr x, .arr y => .ok (.arr (x ++ y))
  | _, _ => .error "TypeError"

/-- Read-modify-write of a Python list element at an index. -/
def pyListModify {α : Type} (l : List α) (i : Int) (f : α → α) : Option (List α) :=
  match pyListGet l i with
  | some x => pyListSet l i (f x)
  | none => none

/-- One partially-built tool-call record of `_stream_response`
(`{"id": "", "name": "", "arguments": ""}`); field values are whatever
JSON values the deltas store into them. -/
structure Slot where
  id : JVal
  name : JVal
  arguments : JVal

/-- The fresh record appended when a delta names a new slot index. -/
def emptySlot : Slot := ⟨.str "", .str "", .str ""⟩

/-- The decoder's running state: `content_buffer` and `tool_calls`. -/
structure DecState where
  buffer : String
  calls : List Slot

/-- The events `_stream_response` yields. -/
inductive StreamEvent where
  | content (text : String)
  | toolCalls (calls : List Slot)
  | done (text : String)

/-- One line of the server-sent-event response, already framed: a line
without the data prefix, the terminal sentinel, a data line whose payload
fails `json.loads`, or one that parses to a JSON value. -/
inductive SseLine where
  | blank
  | doneMark
  | badJson
  | payload (j : JVal)

/-- One entry of a delta's `tool_calls` list, as `_stream_response`
processes it (`idx = tc.get("index", 0)`; grow by one slot when the index
is not below the current length; store `id`, `function.name`; append
`function.arguments`).  Python evaluation order of the subscripts and of
`+` is kept, so the exception raised matches the source. -/
def processTC (calls : List Slot) (tc : JVal) : Except String (List Slot) := do
  let idxV ← pyGet tc "index" (.num 0)
  let idx ← (match idxV with
    | .num n => Except.ok n
    | .bool b => Except.ok (if b then (1 : Int) else 0)
    | _ => Except.error "TypeError")
  let calls := if (calls.length : Int) ≤ idx then calls ++ [emptySlot] else calls
  let hasId ← pyContainsStr tc "id"
  let calls ← (if hasId then do
      let v ← pySubStr tc "id"
      match pyListModify calls idx (fun s => { s with id := v }) with
      | some c => Except.ok c
      | none => Except.error "IndexError"
    else Except.ok calls)
  let hasFn ← pyContainsStr tc "function"
  if hasFn then do
    let fv ← pySubStr tc "function"
    let hasName ← pyContainsStr fv "name"
    let calls ← (if hasName then do
        let v ← pySubStr fv "name"
        match pyListModify calls idx (fun s => { s with name := v }) with
        | some c => Except.ok c
        | none => Except.error "IndexError"
      else Except.ok calls)
    let hasArgs ← pyContainsStr fv "arguments"
    if hasArgs then
      match pyListGet calls idx with
      | none => Except.error "IndexError"
      | some s => do
        let v ← pySubStr fv "arguments"
        let nv ← pyAdd s.arguments v
        match pyListSet calls idx { s with arguments := nv } with
        | some c => Except.ok c
        | none => Except.error "IndexError"
    else Except.ok calls
  else Except.ok calls

/-- Process one parsed delta: extract `choices[0].delta`, append truthy
`content` to the buffer (yielding a `content` event), then fold the
`tool_calls` entries.  Returns the events yielded before any uncaught
exception together with the outcome. -/
def processDelta (st : DecState) (chunk : JVal) :
    List StreamEvent × Except String DecState :=
  match (do
    let choices ← pyGet chunk "choices" (.arr [.obj []])
    let c0 ← pyIndexZero choices
    pyGet c0 "delta" (.obj [])) with
  | .error e => ([], .error e)
  | .ok delta =>
    match pyContainsStr delta "content" with
    | .error e => ([], .error e)
    | .ok hasC =>
      let step1 : List StreamEvent × Except String DecState :=
        if hasC then
          match pySubStr delta "content" with
          | .error e => ([], .error e)
          | .ok v =>
            if pyTruthy v then
              match v with
              | .str s => ([.content s], .ok { st with buffer := st.buffer ++ s })
              | _ => ([], .error "TypeError")
            else ([], .ok st)
        else ([], .ok st)
      match step1 with
      | (evs, .error e) => (evs, .error e)
      | (evs, .ok st1) =>
        match pyContainsStr delta "tool_calls" with
        | .error e => (evs, .error e)
        | .ok hasT =>
          if hasT then
            match pySubStr delta "tool_calls" with
            | .error e => (evs, .error e)
            | .ok tv =>
              match pyIter tv with
              | .error e => (evs, .error e)
              | .ok items =>
                match items.foldlM processTC st1.calls with
                | .error e => (evs, .error e)
                | .ok cs => (evs, .ok { st1 with calls := cs })
          else (evs, .ok st1)

/-- The events `_stream_response` emits after its line loop ends: the
assembled `tool_calls` if any slot was populated, then always `done`. -/
def endOfStream (st : DecState) : List StreamEvent :=
  (if st.calls.isEmpty then [] else [.toolCalls st.calls]) ++ [.done st.buffer]

/-- Drive the decoder over the framed lines.  The second component is
`some e` when an uncaught exception `e` aborts the generator (the events
already yielded are kept), `none` when the stream completes. -/
def runStreamAux (st : DecState) : List SseLine → List StreamEvent × Option String
  | [] => (endOfStream st, none)
  | .blank :: rest => runStreamAux st rest
  | .badJson :: rest => runStreamAux st rest
  | .doneMark :: _ => (endOfStream st, none)
  | .payload j :: rest =>
    match processDelta st j with
    | (evs, .ok st2) =>
      let r := runStreamAux st2 rest
      (evs ++ r.1, r.2)
    | (evs, .error e) => (evs, some e)

/-- `_stream_response`, from the empty buffer and no slots. -/
def runStream (lines : List SseLine) : List StreamEvent × Option String :=
  runStreamAux ⟨"", []⟩ lines

/-- A well-shaped tool-call fragment: its slot index and the optional
`id`, `function.name` and `function.arguments` string fields. -/
structure Frag where
  index : Nat
  idPart : Option String
  namePart : Option String
  argPart : Option String

/-- The `function` object of a fragment. -/
def fragFn (f : Frag) : List (String × JVal) :=
  (match f.namePart with | some s => [("name", JVal.str s)] | none => [])
    ++ (match f.argPart with | some s => [("arguments", JVal.str s)] | none => [])

/-- The fragment as the JSON entry a provider streams. -/
def fragToJVal (f : Frag) : JVal :=
  .obj ([("index", JVal.num (f.index : Int))]
    ++ (match f.idPart with | some s => [("id", JVal.str s)] | none => [])
    ++ (if f.namePart.isSome || f.argPart.isSome then
          [("function", JVal.obj (fragFn f))] else []))

/-- A delta line carrying only tool-call fragments. -/
def toolCallsChunk (fs : List Frag) : JVal :=
  .obj [("choices", .arr [.obj [("delta",
    .obj [("tool_calls", .arr (fs.map fragToJVal))])]])]

/-- The same as an SSE line. -/
def toolCallsLine (fs : List Frag) : SseLine := .payload (toolCallsChunk fs)

/-- Specification-side slot: plain string fields.
Modelled from the spec: one indexed, partially-built tool-call record. -/
structure SpecSlot where
  sid : String
  sname : String
  sargs : String

/-- The fresh specification-side slot. -/
def SpecSlot.emptyOne : SpecSlot := ⟨"", "", ""⟩

/-- Interpret a specification-side slot as the decoder's record. -/
def toSlot (s : SpecSlot) : Slot := ⟨.str s.sid, .str s.sname, .str s.sargs⟩

/-- Merge one fragment into its slot: `id` and `name` overwrite,
argument text appends (the spec: accumulate name and argument-text
fragments keyed by an integer slot index). -/
def mergeFrag (s : SpecSlot) (f : Frag) : SpecSlot :=
  { sid := match f.idPart with | some v => v | none => s.sid
    sname := match f.namePart with | some v => v | none => s.sname
    sargs := match f.argPart with | some t => s.sargs ++ t | none => s.sargs }

/-- Grow the slot list with fresh slots up to the wanted length
(the spec: out-of-range indices grow the list). -/
def padSlots (l : List SpecSlot) (n : Nat) : List SpecSlot :=
  l ++ List.replicate (n - l.length) SpecSlot.emptyOne

/-- Specification-side assembly of one fragment. -/
def assembleStep (l : List SpecSlot) (f : Frag) : List SpecSlot :=
  let l2 := padSlots l (f.index + 1)
  match l2.get? f.index with
  | some s => l2.set f.index (mergeFrag s f)
  | none => l2

/-- Specification-side assembly of a fragment sequence. -/
def assemble (l : List SpecSlot) (fs : List Frag) : List SpecSlot :=
  fs.foldl assembleStep l

/-- Whether, starting from `n` existing slots, every fragment's index is
at most the number of slots existing when it arrives (the decoder grows
the list by one slot at a time). -/
def noSkipFrom (n : Nat) : List Frag → Bool
  | [] => true
  | f :: rest =>
    decide (f.index ≤ n) && noSkipFrom (if f.index = n then n + 1 else n) rest

/-- The number of slots after assembling the fragments, starting from
`n` slots (a fragment introducing a new index adds one slot). -/
def growN (n : Nat) : List Frag → Nat
  | [] => n
  | f :: rest => growN (if f.index = n then n + 1 else n) rest

/-- Find the closing bracket of an fnmatch character class: the class
content and what follows, with the consumed-length fact for recursion. -/
def findClose : (cs : List Char) → Option (List Char × {r : List Char // r.length < cs.length})
  | [] => none
  | ']' :: rest => some ([], ⟨rest, by simp⟩)
  | c :: rest =>
    match findClose rest with
    | some (content, ⟨r, hr⟩) => some (c :: content, ⟨r, by simp; omega⟩)
    | none => none

/-- As `findClose`, but a class whose first character is the closing
bracket keeps it as content (fnmatch's scan starts past it). -/
def findCloseSkip : (cs : List Char) → Option (List Char × {r : List Char // r.length < cs.length})
  | ']' :: rest =>
    match findClose rest with
    | some (content, ⟨r, hr⟩) => some (']' :: content, ⟨r, by simp; omega⟩)
    | none => none
  | cs => findClose cs

/-- Parse an fnmatch class body (after the opening bracket): negation
flag, content, and the remaining pattern; `none` when unclosed (the
opening bracket is then a literal). -/
def classSpan (cs : List Char) : Option (Bool × List Char × {r : List Char // r.length < cs.length}) :=
  match cs with
  | [] => none
  | '!' :: t =>
    match findCloseSkip t with
    | some (content, ⟨r, hr⟩) => some (true, content, ⟨r, by simp; omega⟩)
    | none => none
  | c :: t =>
    match findCloseSkip (c :: t) with
    | some (content, ⟨r, hr⟩) => some (false, content, ⟨r, hr⟩)
    | none => none

/-- One token of a compiled glob pattern. -/
inductive GTok where
  | star
  | qmark
  | lit (c : Char)
  | cls (neg : Bool) (content : List Char)

/-- Compile an fnmatch pattern (star, question mark, classes with
negation; an unclosed class bracket is a literal). -/
def compilePat : (cs : List Char) → List GTok
  | [] => []
  | '*' :: ps => GTok.star :: compilePat ps
  | '?' :: ps => GTok.qmark :: compilePat ps
  | '[' :: ps =>
    match classSpan ps with
    | none => GTok.lit '[' :: compilePat ps
    | some (neg, content, ⟨rest, hr⟩) => GTok.cls neg content :: compilePat rest
  | c :: ps => GTok.lit c :: compilePat ps
termination_by cs => cs.length
decreasing_by all_goals simp_all <;> omega

/-- Class content match with ranges. -/
def classMatch : List Char → Char → Bool
  | [], _ => false
  | a :: '-' :: b :: rest, c => (a ≤ c && c ≤ b) || classMatch rest c
  | a :: rest, c => (a = c) || classMatch rest c

/-- Match a compiled glob against a string's characters. -/
def matchToks : List GTok → List Char → Bool
  | [], s => s.isEmpty
  | .star :: ts, s =>
    matchToks ts s || (match s with | [] => false | _ :: t => matchToks (.star :: ts) t)
  | .qmark :: ts, s => (match s with | [] => false | _ :: t => matchToks ts t)
  | .lit c :: ts, s => (match s with | [] => false | d :: t => c = d && matchToks ts t)
  | .cls neg content :: ts, s =>
    (match s with | [] => false | d :: t => (classMatch content d != neg) && matchToks ts t)
termination_by ts s => (ts.length, s.length)

/-- `fnmatch.fnmatch(name, pattern)` (POSIX case rules: no folding). -/
def fnmatchB (nm pat : String) : Bool := matchToks (compilePat pat.data) nm.data

/-- A tool-call argument map, restricted to the keys the modelled code
reads (`path`, `file`, `save_path`, `command`, `old`, `new`, `all`),
with JSON string values as the tool schemas declare. -/
structure Args where
  path : Option String := none
  file : Option String := none
  savePath : Option String := none
  command : Option String := none
  old : Option String := none
  newText : Option String := none
  allFlag : Option String := none

/-- Python truthiness of `d.get(k)` for a string-valued key. -/
def truthyS (o : Option String) : Bool := (o.getD "") ≠ ""

/-- Python `a or b` over such values. -/
def pyOrS (a b : Option String) : Option String := if truthyS a then a else b

/-- `PermissionRule`: tool matcher, path pattern, action. -/
structure PermissionRule where
  tool : String
  pattern : String
  action : String
  deriving DecidableEq

/-- `PermissionRule.matches`. -/
def PermissionRule.matchesCall (r : PermissionRule) (tool : String)
    (path : Option String) : Bool :=
  if r.tool ≠ "*" ∧ r.tool ≠ tool then false
  else if truthyS path ∧ r.pattern ≠ "*" then fnmatchB (path.getD "") r.pattern
  else true

/-- `DEFAULT_RULES`. -/
def DEFAULT_RULES : List PermissionRule :=
  [⟨"read", "*", "allow"⟩,
   ⟨"ls", "*", "allow"⟩,
   ⟨"glob", "*", "allow"⟩,
   ⟨"grep", "*", "allow"⟩,
   ⟨"find", "*", "allow"⟩,
   ⟨"git_status", "*", "allow"⟩,
   ⟨"git_diff", "*", "allow"⟩,
   ⟨"git_log", "*", "allow"⟩,
   ⟨"changes", "*", "allow"⟩,
   ⟨"watch", "*", "allow"⟩,
   ⟨"think", "*", "allow"⟩,
   ⟨"fetch", "*", "allow"⟩]

/-- The three-valued outcome of `PermissionManager.check`:
`(True, reason)`, `(False, reason)` or `(None, "Requires approval")`. -/
inductive Decision where
  | allow (reason : String)
  | deny (reason : String)
  | ask
  deriving DecidableEq

/-- What one rule of the loop in `PermissionManager.check` contributes:
the bash substring case first (a deny returns, a non-deny `continue`s),
then `rule.matches` with its action; `none` scans on. -/
def ruleOutcome (r : PermissionRule) (tool : String) (path : Option String)
    (command : String) : Option Decision :=
  if tool = "bash" ∧ r.tool = "bash" ∧ r.pattern ≠ "*" ∧ strIn r.pattern command then
    (if r.action = "deny" then
      some (.deny ("Denied: command matches blocked pattern '" ++ r.pattern ++ "'"))
    else none)
  else if r.matchesCall tool path then
    (if r.action = "deny" then
      some (.deny ("Denied: matches rule " ++ r.tool ++ ":" ++ r.pattern))
    else if r.action = "allow" then some (.allow "Auto-approved by rule")
    else none)
  else none

/-- The rule loop: first decision wins. -/
def scanRules (rules : List PermissionRule) (tool : String)
    (path : Option String) (command : String) : Option Decision :=
  match rules with
  | [] => none
  | r :: rest =>
    match ruleOutcome r tool path command with
    | some d => some d
    | none => scanRules rest tool path command

/-- `PermissionManager` state: rule list, mode, session approvals
(a set, modelled as a list queried by membership). -/
structure PermissionManager where
  rules : List PermissionRule
  mode : String
  approved : List String

/-- `args.get("path") or args.get("file") or args.get("save_path")`. -/
def argPathChain (args : Args) : Option String :=
  pyOrS (pyOrS args.path args.file) args.savePath

/-- The session key `check` looks up: `f"{tool}:{path or command}"`. -/
def checkKey (tool : String) (args : Args) : String :=
  tool ++ ":" ++ (if truthyS (argPathChain args) then (argPathChain args).getD ""
                  else args.command.getD "")

/-- The session key `approve` records:
`f"{tool}:{path or file or command}"`. -/
def approveKey (tool : String) (args : Args) : String :=
  tool ++ ":" ++ (pyOrS (pyOrS args.path args.file)
                   (some (args.command.getD ""))).getD ""

/-- `PermissionManager.check`: rules first, then mode (`auto` allows,
`strict` denies, anything else falls through to the session-approval
lookup of ask mode). -/
def PermissionManager.check (pm : PermissionManager) (tool : String)
    (args : Args) : Decision :=
  let path := argPathChain args
  let command := args.command.getD ""
  match scanRules pm.rules tool path command with
  | some d => d
  | none =>
    if pm.mode = "auto" then .allow "Auto mode enabled"
    else if pm.mode = "strict" then .deny "Strict mode - requires explicit approval"
    else
      if pm.approved.contains (checkKey tool args) then
        .allow "Previously approved this session"
      else .ask

/-- `PermissionManager.approve`: record the session key. -/
def PermissionManager.approve (pm : PermissionManager) (tool : String)
    (args : Args) : PermissionManager :=
  { pm with approved := pm.approved ++ [approveKey tool args] }

/-- `PermissionManager.add_rule`: insert at the front. -/
def PermissionManager.add_rule (pm : PermissionManager) (tool pattern action : String) :
    PermissionManager :=
  { pm with rules := ⟨tool, pattern, action⟩ :: pm.rules }

/-- `PermissionManager.approve_all`. -/
def PermissionManager.approve_all (pm : PermissionManager) (tool : String) :
    PermissionManager :=
  pm.add_rule tool "*" "allow"

/-- `PermissionManager.set_mode`. -/
def PermissionManager.set_mode (pm : PermissionManager) (m : String) :
    PermissionManager :=
  if m = "ask" ∨ m = "auto" ∨ m = "strict" then { pm with mode := m } else pm

/-- Python `s.startswith(p)`. -/
def strStarts (p s : String) : Bool := leadMatch p.data s.data

/-- ASCII lower-casing of one character (`str.lower` restricted to the
ASCII letters, all the flag comparison with `"true"` can observe). -/
def lowerChar (c : Char) : Char :=
  if 'A' ≤ c ∧ c ≤ 'Z' then Char.ofNat (c.toNat + 32) else c

/-- Python `s.lower()` over ASCII. -/
def strLower (s : String) : String := String.mk (s.data.map lowerChar)

/-- Python `s.split(sep, 1)` over characters: the part before the first
separator and, when one occurs, the rest. -/
def split1Chars (sep : Char) : List Char → List Char × Option (List Char)
  | [] => ([], none)
  | c :: rest =>
    if c = sep then ([], some rest)
    else
      let r := split1Chars sep rest
      (c :: r.1, r.2)

/-- Python `s.split(sep, 1)`. -/
def split1 (s : String) (sep : Char) : List String :=
  match split1Chars sep s.data with
  | (a, none) => [String.mk a]
  | (a, some b) => [String.mk a, String.mk b]

/-- An assembled tool-call request of the loop: the call id, the tool
name, and the `json.loads` outcome of its raw argument text (`none` is a
parse failure, which the loop degrades to the empty map). -/
structure ToolCallReq where
  cid : String
  name : String
  parsedArgs : Option Args

/-- The empty argument map. -/
def emptyArgs : Args := {}

/-- The user's answer at the permission prompt: `y`, `a`, or anything
else (including EOF/interrupt, which refuse). -/
inductive PromptAnswer where
  | yes
  | always
  | no
  deriving DecidableEq

/-- `prompt_for_permission` with the user's answer supplied by an
oracle: `y` records a session approval and grants, `a` inserts a
highest-priority allow rule for the tool and grants, anything else
refuses. -/
def promptModel (pm : PermissionManager) (tool : String) (args : Args)
    (ans : PromptAnswer) : Bool × PermissionManager :=
  match ans with
  | .yes => (true, pm.approve tool args)
  | .always => (true, pm.approve_all tool)
  | .no => (false, pm)

/-- A record of an actual tool invocation: a local handler run via the
dispatcher, or a remote capability call. -/
inductive Dispatch where
  | localTool (name : String) (args : Args)
  | mcpCall (server tool : String) (args : Args)

/-- A tool-result message appended to the conversation
(`{"role": "tool", "tool_call_id": ..., "content": ...}`). -/
structure ToolMsg where
  tool_call_id : String
  content : String

/-- One iteration of the tool-execution loop of `agentic_loop`: consult
the Permission Gate, prompt the user on the ask outcome, and either
synthesize a blocked/skipped tool result without invoking anything, or
dispatch to the
MCP client / local dispatcher.  `mcpResult` and `localResult` supply the
collaborators' returned strings; the `Option Dispatch` component records
whether and how the tool was actually invoked. -/
def execStep (pm : PermissionManager) (tc : ToolCallReq)
    (ans : PromptAnswer)
    (mcpResult : String → String → Args → String)
    (localResult : String → Args → String) :
    PermissionManager × ToolMsg × Option Dispatch :=
  let args := tc.parsedArgs.getD emptyArgs
  let runIt : PermissionManager → PermissionManager × ToolMsg × Option Dispatch :=
    fun pm2 =>
      if strStarts "mcp_" tc.name then
        match split1 (tc.name.drop 4) '_' with
        | [sv, tl] => (pm2, ⟨tc.cid, mcpResult sv tl args⟩, some (.mcpCall sv tl args))
        | _ => (pm2, ⟨tc.cid, "error: invalid MCP tool name"⟩, none)
      else (pm2, ⟨tc.cid, localResult tc.name args⟩, some (.localTool tc.name args))
  match pm.check tc.name args with
  | .ask =>
    let g := promptModel pm tc.name args ans
    if g.1 then runIt g.2
    else (g.2, ⟨tc.cid, "Skipped: user denied permission"⟩, none)
  | .deny reason => (pm, ⟨tc.cid, "Blocked: " ++ reason⟩, none)
  | .allow _ => runIt pm
  
/-- The whole tool-execution phase: the calls in order, sequentially,
threading the permission state; returns each call's tool-result message
and invocation record. -/
def execPhase (pm : PermissionManager) (calls : List ToolCallReq)
    (ans : ToolCallReq → PromptAnswer)
    (mcpResult : String → String → Args → String)
    (localResult : String → Args → String) :
    PermissionManager × List (ToolMsg × Option Dispatch) :=
  match calls with
  | [] => (pm, [])
  | tc :: rest =>
    let s := execStep pm tc (ans tc) mcpResult localResult
    let r := execPhase s.1 rest ans mcpResult localResult
    (r.1, (s.2.1, s.2.2) :: r.2)

/-- A Python call outcome: a returned string or a raised exception of
class `Exception`.  (`KeyboardInterrupt` is the process-level interrupt
of spec section 5, not a deterministic outcome of a call on given
arguments, and is outside this embedding.) -/
inductive PyOutcome where
  | ok (s : String)
  | exc (e : String)

/-- `run_tool`: inside its `try`, an unknown name returns an
`error: unknown tool` string, a handler raise is caught and becomes an
`error:` string, and the best-effort change-tracking block swallows its
own failure; `Except.error` would be an exception escaping the
boundary.  The registry maps a name to its handler (`TOOLS[name].function`). -/
def run_tool (registry : List (String × (Args → PyOutcome)))
    (track : String → String → PyOutcome)
    (name : String) (args : Args) (sessionId : Option String) :
    Except String String :=
  match alookup registry name with
  | none => .ok ("error: unknown tool '" ++ name ++ "'")
  | some f =>
    match f args with
    | .exc e => .ok ("error: " ++ e)
    | .ok result =>
      let _ := if truthyS sessionId ∧ (name = "write" ∨ name = "edit")
               then some (track (args.path.getD "") name) else none
      .ok result

/-- Python `s.count(sub)` scan for a non-empty pattern: non-overlapping
occurrences.  A match at a position skips the rest of the matched text
(`skip` characters still to pass over). -/
def countSkip (p : List Char) : Nat → List Char → Nat
  | _, [] => 0
  | Nat.succ skip, _ :: rest => countSkip p skip rest
  | 0, c :: rest =>
    if leadMatch p (c :: rest) then 1 + countSkip p (p.length - 1) rest
    else countSkip p 0 rest

/-- Python `s.count(sub)` (the empty pattern counts `len(s) + 1`). -/
def pyCount (s sub : String) : Nat :=
  match sub.data with
  | [] => s.data.length + 1
  | a :: ps => countSkip (a :: ps) 0 s.data

/-- Replace every non-overlapping occurrence of the non-empty pattern
`p` by `new`, with the same skip bookkeeping as `countSkip`. -/
def replSkip (p new : List Char) : Nat → List Char → List Char
  | _, [] => []
  | Nat.succ skip, _ :: rest => replSkip p new skip rest
  | 0, c :: rest =>
    if leadMatch p (c :: rest) then new ++ replSkip p new (p.length - 1) rest
    else c :: replSkip p new 0 rest

/-- Replace the first occurrence of `a :: ps` by `new`. -/
def replFirst (a : Char) (ps new : List Char) : List Char → List Char
  | [] => []
  | c :: rest =>
    if leadMatch (a :: ps) (c :: rest) then new ++ rest.drop ps.length
    else c :: replFirst a ps new rest

/-- Python `s.replace("", new)`. -/
def replEmptyAll (new : List Char) : List Char → List Char
  | [] => new
  | c :: rest => new ++ c :: replEmptyAll new rest

/-- Python `s.replace(old, new)`. -/
def pyReplaceAll (s old new : String) : String :=
  match old.data with
  | [] => String.mk (replEmptyAll new.data s.data)
  | a :: ps => String.mk (replSkip (a :: ps) new.data 0 s.data)

/-- Python `s.replace(old, new, 1)`. -/
def pyReplaceOne (s old new : String) : String :=
  match old.data with
  | [] => String.mk (new.data ++ s.data)
  | a :: ps => String.mk (replFirst a ps new.data s.data)

/-- `tool_edit` over an abstract file system (resolved path ↦ text;
`Path(...).resolve()` is the identity on this path space, and a readable
file's whole text is its entry).  Missing required argument keys raise
`KeyError`, which `run_tool` catches. -/
def tool_edit (fs : List (String × String)) (args : Args) :
    PyOutcome × List (String × String) :=
  match args.path with
  | none => (.exc "KeyError", fs)
  | some p =>
    match alookup fs p with
    | none => (.ok ("error: file not found: " ++ p), fs)
    | some text =>
      match args.old with
      | none => (.exc "KeyError", fs)
      | some old =>
        match args.newText with
        | none => (.exc "KeyError", fs)
        | some nw =>
          if ¬ strIn old text then (.ok "error: old string not found in file", fs)
          else
            let count := pyCount text old
            let replaceAll := strLower (args.allFlag.getD "") = "true"
            if count > 1 ∧ ¬ replaceAll then
              (.ok ("error: old string appears " ++ toString count ++
                " times, must be unique (use all=true)"), fs)
            else
              let result := if replaceAll then pyReplaceAll text old nw
                            else pyReplaceOne text old nw
              (.ok ("ok: replaced " ++ toString (if replaceAll then count else 1) ++
                " occurrence(s)"), aset fs p result)

/-- A tool advertised by an MCP server (`MCPTool`); the provider's
self-reported `name` is modelled as the JSON string a conforming
provider sends (the spec keys tools by connection identity and local
name). -/
structure MCPTool where
  name : String
  description : JVal
  input_schema : JVal
  server_name : String

/-- A resource advertised by an MCP server (`MCPResource`); `rname` is
the dataclass field `name`, `mime_type` the `r.get("mimeType")` value
(`null` when absent). -/
structure MCPResource where
  uri : String
  rname : JVal
  description : JVal
  mime_type : JVal
  server_name : String

/-- One MCP server connection (`MCPServer`): `process` is the live
child-process handle or `None`; `requestId` is the `_request_id`
counter.  The `_response_queue` is the `inbox` list the operations
thread explicitly. -/
structure MCPServer where
  name : String
  command : String
  cargs : List String
  env : List (String × String)
  process : Option Nat
  tools : List MCPTool
  resources : List MCPResource
  requestId : Nat

/-- `MCPClient`: the connections and the shared tool/resource
namespaces. -/
structure MCPClient where
  servers : List (String × MCPServer)
  all_tools : List (String × MCPTool)
  all_resources : List (String × MCPResource)

/-- The client with no servers. -/
def MCPClient.empty : MCPClient := ⟨[], [], []⟩

/-- Update the record stored under a key in place (the keys are unique:
the lists model Python dicts). -/
def updA {α : Type} (l : List (String × α)) (k : String) (f : α → α) :
    List (String × α) :=
  match l with
  | [] => []
  | (k2, v) :: rest => if k2 = k then (k2, f v) :: rest else (k2, v) :: updA rest k f

/-- Update one server record in place. -/
def updServer (st : MCPClient) (name : String) (f : MCPServer → MCPServer) :
    MCPClient :=
  { st with servers := updA st.servers name f }

/-- `MCPClient.add_server`. -/
def MCPClient.add_server (st : MCPClient) (name command : String)
    (cargs : List String) (env : List (String × String)) : MCPClient :=
  { st with servers := aset st.servers name ⟨name, command, cargs, env, none, [], [], 0⟩ }

/-- `_wait_response`: pop the connection's single shared inbound queue;
`none` is `queue.Empty` after the timeout. -/
def waitResponse (inbox : List JVal) : Option JVal × List JVal :=
  match inbox with
  | [] => (none, [])
  | m :: rest => (some m, rest)

/-- `MCPClient.disconnect`: pop exactly the keys derived from the
connection's recorded tools and resources, kill the child, clear the
record. -/
def MCPClient.disconnect (st : MCPClient) (serverName : String) : MCPClient :=
  match alookup st.servers serverName with
  | none => st
  | some srv =>
    let at2 := (srv.tools.map (fun t => serverName ++ "/" ++ t.name)).foldl apop st.all_tools
    let ar2 := (srv.resources.map (fun r => r.uri)).foldl apop st.all_resources
    updServer { st with all_tools := at2, all_resources := ar2 } serverName
      (fun s => { s with process := none, tools := [], resources := [] })

/-- One entry of a `tools/list` result: `t["name"]`,
`t.get("description", "")`, `t.get("inputSchema", ...)`. -/
def parseTool (sname : String) (t : JVal) : Except String MCPTool := do
  let nv ← pySubStr t "name"
  let nameS ← (match nv with
    | JVal.str s => Except.ok s
    | _ => Except.error "TypeError")
  let desc ← pyGet t "description" (.str "")
  let schema ← pyGet t "inputSchema"
    (.obj [("type", .str "object"), ("properties", .obj [])])
  Except.ok ⟨nameS, desc, schema, sname⟩

/-- Append discovered tools one at a time (the source mutates as it
iterates, so a raise keeps the entries already added). -/
def addToolsLoop (st : MCPClient) (sname : String) :
    List JVal → MCPClient × Option String
  | [] => (st, none)
  | t :: ts =>
    match parseTool sname t with
    | .error e => (st, some e)
    | .ok tool =>
      let st2 := updServer st sname (fun s => { s with tools := s.tools ++ [tool] })
      let st3 := { st2 with all_tools := aset st2.all_tools (sname ++ "/" ++ tool.name) tool }
      addToolsLoop st3 sname ts

/-- One entry of a `resources/list` result: `r["uri"]`,
`r.get("name", r["uri"])`, `r.get("description", "")`,
`r.get("mimeType")`. -/
def parseResource (sname : String) (r : JVal) : Except String MCPResource := do
  let uv ← pySubStr r "uri"
  let uriS ← (match uv with
    | JVal.str s => Except.ok s
    | _ => Except.error "TypeError")
  let nm ← pyGet r "name" uv
  let desc ← pyGet r "description" (.str "")
  let mime ← pyGet r "mimeType" .null
  Except.ok ⟨uriS, nm, desc, mime, sname⟩

/-- Append discovered resources one at a time. -/
def addResourcesLoop (st : MCPClient) (sname : String) :
    List JVal → MCPClient × Option String
  | [] => (st, none)
  | r :: rs =>
    match parseResource sname r with
    | .error e => (st, some e)
    | .ok res =>
      let st2 := updServer st sname (fun s => { s with resources := s.resources ++ [res] })
      let st3 := { st2 with all_resources := aset st2.all_resources res.uri res }
      addResourcesLoop st3 sname rs

/-- `_discover_tools`: send `tools/list` (the id counter increments),
wait with its own timeout, and on a truthy response carrying `result`
add the advertised tools; an empty or missing response adds nothing;
a raise while parsing is reported (connect's `except` will abort). -/
def discoverToolsStep (st : MCPClient) (sname : String) (inbox : List JVal) :
    (MCPClient × Option String) × List JVal :=
  let st := updServer st sname (fun s => { s with requestId := s.requestId + 1 })
  let w := waitResponse inbox
  match w.1 with
  | none => ((st, none), w.2)
  | some r =>
    if ¬ pyTruthy r then ((st, none), w.2)
    else
      match pyContainsStr r "result" with
      | .error e => ((st, some e), w.2)
      | .ok false => ((st, none), w.2)
      | .ok true =>
        match pySubStr r "result" with
        | .error e => ((st, some e), w.2)
        | .ok resultV =>
          match pyGet resultV "tools" (.arr []) with
          | .error e => ((st, some e), w.2)
          | .ok toolsV =>
            match pyIter toolsV with
            | .error e => ((st, some e), w.2)
            | .ok items => (addToolsLoop st sname items, w.2)

/-- `_discover_resources`, same shape. -/
def discoverResourcesStep (st : MCPClient) (sname : String) (inbox : List JVal) :
    (MCPClient × Option String) × List JVal :=
  let st := updServer st sname (fun s => { s with requestId := s.requestId + 1 })
  let w := waitResponse inbox
  match w.1 with
  | none => ((st, none), w.2)
  | some r =>
    if ¬ pyTruthy r then ((st, none), w.2)
    else
      match pyContainsStr r "result" with
      | .error e => ((st, some e), w.2)
      | .ok false => ((st, none), w.2)
      | .ok true =>
        match pySubStr r "result" with
        | .error e => ((st, some e), w.2)
        | .ok resultV =>
          match pyGet resultV "resources" (.arr []) with
          | .error e => ((st, some e), w.2)
          | .ok resV =>
            match pyIter resV with
            | .error e => ((st, some e), w.2)
            | .ok items => (addResourcesLoop st sname items, w.2)

/-- `MCPClient.connect`.  `spawn` is the `Popen` outcome (`none` when it
raises); the `initialize` request increments the id counter, its
response is awaited on the shared queue with a bounded timeout; a
missing, falsy or error-carrying response (or a raise anywhere in the
`try`) disconnects and reports `False`; then the fire-and-forget
notification, tool discovery and resource discovery run. -/
def MCPClient.connect (st : MCPClient) (serverName : String)
    (spawn : Option Nat) (inbox : List JVal) :
    Bool × MCPClient × List JVal :=
  if (alookup st.servers serverName).isNone then (false, st, inbox)
  else
    match spawn with
    | none => (false, st.disconnect serverName, inbox)
    | some pid =>
      let st := updServer st serverName (fun s => { s with process := some pid })
      let st := updServer st serverName (fun s => { s with requestId := s.requestId + 1 })
      let w := waitResponse inbox
      match w.1 with
      | none => (false, st.disconnect serverName, w.2)
      | some r =>
        if ¬ pyTruthy r then (false, st.disconnect serverName, w.2)
        else
          match pyContainsStr r "error" with
          | .error _ => (false, st.disconnect serverName, w.2)
          | .ok true => (false, st.disconnect serverName, w.2)
          | .ok false =>
            let dt := discoverToolsStep st serverName w.2
            match dt.1.2 with
            | some _ => (false, (dt.1.1).disconnect serverName, dt.2)
            | none =>
              let dr := discoverResourcesStep dt.1.1 serverName dt.2
              match dr.1.2 with
              | some _ => (false, (dr.1.1).disconnect serverName, dr.2)
              | none => (true, dr.1.1, dr.2)

/-- The `call_tool` fallback result. -/
def noResponseErr : JVal := .obj [("error", .str "No response from server")]

/-- `MCPClient.call_tool`: check the server and its process, send
`tools/call` (the id counter increments), pop the shared queue, and
interpret whatever message comes first — the id of the popped message is
never consulted. -/
def MCPClient.call_tool (st : MCPClient) (serverName toolName : String)
    (arguments : JVal) (inbox : List JVal) :
    Except String JVal × MCPClient × List JVal :=
  match alookup st.servers serverName with
  | none => (.ok (.obj [("error", .str ("Unknown server: " ++ serverName))]), st, inbox)
  | some srv =>
    if srv.process.isNone then
      (.ok (.obj [("error", .str ("Server " ++ serverName ++ " not connected"))]), st, inbox)
    else
      let st := updServer st serverName (fun s => { s with requestId := s.requestId + 1 })
      let w := waitResponse inbox
      match w.1 with
      | none => (.ok noResponseErr, st, w.2)
      | some r =>
        if ¬ pyTruthy r then (.ok noResponseErr, st, w.2)
        else
          match pyContainsStr r "result" with
          | .error e => (.error e, st, w.2)
          | .ok true =>
            match pySubStr r "result" with
            | .error e => (.error e, st, w.2)
            | .ok v => (.ok v, st, w.2)
          | .ok false =>
            match pyContainsStr r "error" with
            | .error e => (.error e, st, w.2)
            | .ok true =>
              match pySubStr r "error" with
              | .error e => (.error e, st, w.2)
              | .ok ev => (.ok (.obj [("error", ev)]), st, w.2)
            | .ok false => (.ok noResponseErr, st, w.2)

/-- A JSON-RPC response message carrying an id and a result payload. -/
def respMsg (i : Int) (v : JVal) : JVal :=
  .obj [("jsonrpc", .str "2.0"), ("id", .num i), ("result", v)]

/-- A connected server used by the correlation scenario: `READY`, id
counter at 0. -/
def srvS : MCPServer := ⟨"s", "cmd", [], [], some 1, [], [], 0⟩

/-- A client owning that one connection. -/
def stS : MCPClient := ⟨[("s", srvS)], [], []⟩

/-- A successful `initialize` response. -/
def initOkMsg : JVal :=
  .obj [("jsonrpc", .str "2.0"), ("id", .num 1), ("result", .obj [("capabilities", .obj [])])]

/-- A `tools/list` response advertising nothing. -/
def toolsNoneMsg : JVal := .obj [("result", .obj [("tools", .arr [])])]

/-- A `resources/list` response advertising one resource with URI `u`. -/
def resUMsg : JVal :=
  .obj [("result", .obj [("resources", .arr [.obj [("uri", .str "u")]])])]

/-- Two registered providers `A` and `B`. -/
def clientAB : MCPClient :=
  (MCPClient.empty.add_server "A" "cmdA" [] []).add_server "B" "cmdB" [] []

/-- Connect `A`, then `B`, each advertising the same resource URI `u`. -/
def clientABConnected : MCPClient :=
  let a := clientAB.connect "A" (some 1) [initOkMsg, toolsNoneMsg, resUMsg]
  let b := (a.2.1).connect "B" (some 2) [initOkMsg, toolsNoneMsg, resUMsg]
  b.2.1

/-- A tool and a resource of provider `A`, and one of each of provider
`B`, with a two-provider client whose namespaces hold all four — the
frame scenario for disconnecting `A`. -/
def frameToolA : MCPTool := ⟨"t1", .str "", .obj [], "A"⟩

/-- Provider B's advertised tool. -/
def frameToolB : MCPTool := ⟨"t2", .str "", .obj [], "B"⟩

/-- Provider A's advertised resource. -/
def frameResA : MCPResource := ⟨"u", .str "u", .str "", .null, "A"⟩

/-- Provider B's advertised resource. -/
def frameResB : MCPResource := ⟨"v", .str "v", .str "", .null, "B"⟩

/-- Provider A's connected record. -/
def frameSrvA : MCPServer := ⟨"A", "cmdA", [], [], some 1, [frameToolA], [frameResA], 3⟩

/-- Provider B's connected record. -/
def frameSrvB : MCPServer := ⟨"B", "cmdB", [], [], some 2, [frameToolB], [frameResB], 3⟩

/-- The two-provider client state. -/
def frameClient : MCPClient :=
  ⟨[("A", frameSrvA), ("B", frameSrvB)],
   [("A/t1", frameToolA), ("B/t2", frameToolB)],
   [("u", frameResA), ("v", frameResB)]⟩

/-! ## Theorems -/

theorem leadMatch_self_append (xs ys : List Char) : leadMatch xs (xs ++ ys) = true := by
  induction xs with
  | nil => rfl
  | cons a t ih => simp [leadMatch, ih]

theorem strStarts_self_append (p t : String) : strStarts p (p ++ t) = true := by
  have h : (p ++ t).data = p.data ++ t.data := rfl
  simp [strStarts, h, leadMatch_self_append]

theorem strStarts_error_not_ok (t : String) :
    strStarts "error:" ("ok: replaced " ++ t) = false := rfl

theorem suckcode_C10_edit_atomic (fs : List (String × String)) (args : Args) :
    (∀ s, (tool_edit fs args).1 = PyOutcome.ok s → strStarts "error:" s = true →
      (tool_edit fs args).2 = fs)
    ∧ (∀ e, (tool_edit fs args).1 = PyOutcome.exc e → (tool_edit fs args).2 = fs)
    ∧ ((tool_edit fs args).2 ≠ fs →
        ∃ s, (tool_edit fs args).1 = PyOutcome.ok s ∧ strStarts "ok: replaced " s = true) := by
  obtain ⟨op, ofl, osp, oc, oo, onw, oa⟩ := args
  cases op with
  | none => simp [tool_edit]
  | some p =>
    cases hl : alookup fs p with
    | none => simp [tool_edit, hl]
    | some text =>
      cases oo with
      | none => simp [tool_edit, hl]
      | some old =>
        cases onw with
        | none => simp [tool_edit, hl]
        | some nw =>
          by_cases hin : strIn old text
          · by_cases hc : pyCount text old > 1 ∧ ¬ (strLower (oa.getD "") = "true")
            · simp [tool_edit, hl, hin, hc]
            · simp only [tool_edit, hl, hin, Bool.false_eq_true, if_false, hc, if_true,
                ite_false, ite_true]
              refine ⟨?_, ?_, ?_⟩
              · intro s hs hpre
                simp at hs
                subst hs
                rw [String.append_assoc] at hpre
                rw [strStarts_error_not_ok] at hpre
                exact absurd hpre (by simp)
              · intro e he
                exact absurd he (by simp)
              · intro _
                refine ⟨_, rfl, ?_⟩
                rw [String.append_assoc]
                exact strStarts_self_append _ _
          · simp [tool_edit, hl, hin]

/-- Witness for C10 at a concrete file system and call. -/
theorem suckcode_C10_edit_atomic_wit :
    (tool_edit [("/a", "aa")] { path := some "/a", old := some "a", newText := some "b" }).1 =
      PyOutcome.ok "error: old string appears 2 times, must be unique (use all=true)"
    ∧ (tool_edit [("/a", "aa")] { path := some "/a", old := some "a", newText := some "b" }).2 =
      [("/a", "aa")] := by
  refine ⟨rfl, ?_⟩
  exact (suckcode_C10_edit_atomic [("/a", "aa")]
    { path := some "/a", old := some "a", newText := some "b" }).1
    "error: old string appears 2 times, must be unique (use all=true)" rfl rfl

/-- Claim C7: `run_tool` always returns a string (no exception passes
its boundary): an unknown tool name and every handler raise become a
string starting `error:`. -/
theorem suckcode_C7_run_tool_total (registry : List (String × (Args → PyOutcome)))
    (track : String → String → PyOutcome) (name : String) (args : Args)
    (sid : Option String) :
    (∃ s, run_tool registry track name args sid = .ok s)
    ∧ (alookup registry name = none →
        run_tool registry track name args sid =
          .ok ("error: unknown tool '" ++ name ++ "'"))
    ∧ (∀ f e, alookup registry name = some f → f args = .exc e →
        run_tool registry track name args sid = .ok ("error: " ++ e)) := by
  unfold run_tool
  split
  next hnone =>
    exact ⟨⟨_, rfl⟩, fun _ => rfl,
      fun g e hg _ => by rw [hnone] at hg; exact absurd hg (by simp)⟩
  next f hsome =>
    split
    next e hexc =>
      refine ⟨⟨_, rfl⟩, fun hn => ?_, fun g e2 hg he => ?_⟩
      · rw [hsome] at hn; exact absurd hn (by simp)
      · rw [hsome] at hg
        obtain rfl : f = g := by injection hg
        rw [hexc] at he
        injection he with h2
        rw [h2]
    next r hok =>
      refine ⟨⟨_, rfl⟩, fun hn => ?_, fun g e hg he => ?_⟩
      · rw [hsome] at hn; exact absurd hn (by simp)
      · rw [hsome] at hg
        obtain rfl : f = g := by injection hg
        rw [hok] at he; exact absurd he (by simp)

/-- Witness for C7: an unknown tool and a raising handler. -/
theorem suckcode_C7_run_tool_total_wit :
    run_tool [("boom", fun _ => PyOutcome.exc "ValueError: nope")] (fun _ _ => PyOutcome.ok "")
      "boom" {} (some "s1") = .ok "error: ValueError: nope" := by
  exact (suckcode_C7_run_tool_total [("boom", fun _ => PyOutcome.exc "ValueError: nope")]
    (fun _ _ => PyOutcome.ok "") "boom" {} (some "s1")).2.2
    (fun _ => PyOutcome.exc "ValueError: nope") "ValueError: nope" rfl rfl

theorem scanRules_none (rules : List PermissionRule) (tool : String)
    (path : Option String) (command : String)
    (h : ∀ r ∈ rules, ruleOutcome r tool path command = none) :
    scanRules rules tool path command = none := by
  induction rules with
  | nil => rfl
  | cons r rest ih =>
    have hr := h r (by simp)
    simp [scanRules, hr]
    exact ih (fun r2 hr2 => h r2 (by simp [hr2]))

theorem scanRules_some_mem (rules : List PermissionRule) (tool : String)
    (path : Option String) (command : String) (d : Decision)
    (h : scanRules rules tool path command = some d) :
    ∃ r ∈ rules, ruleOutcome r tool path command = some d := by
  induction rules with
  | nil => simp [scanRules] at h
  | cons r rest ih =>
    rw [scanRules] at h
    cases hr : ruleOutcome r tool path command with
    | some d2 =>
      rw [hr] at h
      injection h with h2
      exact ⟨r, by simp, by rw [hr, h2]⟩
    | none =>
      rw [hr] at h
      obtain ⟨r2, hmem, hout⟩ := ih h
      exact ⟨r2, by simp [hmem], hout⟩

theorem ruleOutcome_shape (r : PermissionRule) (tool : String)
    (path : Option String) (command : String) (d : Decision)
    (h : ruleOutcome r tool path command = some d) :
    (∃ m, d = .deny m) ∨ d = .allow "Auto-approved by rule" := by
  unfold ruleOutcome at h
  split at h
  · split at h
    · exact Or.inl ⟨_, (Option.some.inj h).symm⟩
    · simp at h
  · split at h
    · split at h
      · exact Or.inl ⟨_, (Option.some.inj h).symm⟩
      · split at h
        · exact Or.inr (Option.some.inj h).symm
        · simp at h
    · simp at h

/-- Claim C3: the Permission Gate — (1) with the default rules a `read`
call with a path argument is allowed in every mode and with any session
approvals, because the `(read, *)` allow rule is consulted before the
mode; (2) in strict mode a call matching no rule is denied; (3) in auto
mode a call matching no deny rule is allowed. -/
theorem suckcode_C3_permission_gate :
    (∀ mode approved (args : Args), truthyS args.path = true →
      PermissionManager.check ⟨DEFAULT_RULES, mode, approved⟩ "read" args =
        .allow "Auto-approved by rule")
    ∧ (∀ rules approved tool (args : Args),
        (∀ r ∈ rules,
          ruleOutcome r tool (argPathChain args) (args.command.getD "") = none) →
        PermissionManager.check ⟨rules, "strict", approved⟩ tool args =
          .deny "Strict mode - requires explicit approval")
    ∧ (∀ rules approved tool (args : Args),
        (∀ r ∈ rules, ∀ m,
          ruleOutcome r tool (argPathChain args) (args.command.getD "") ≠
            some (.deny m)) →
        ∃ reason,
          PermissionManager.check ⟨rules, "auto", approved⟩ tool args =
            .allow reason) := by
  refine ⟨?_, ?_, ?_⟩
  · intro mode approved args _
    simp [PermissionManager.check, DEFAULT_RULES, scanRules, ruleOutcome,
      PermissionRule.matchesCall]
  · intro rules approved tool args h
    rw [PermissionManager.check, scanRules_none rules tool _ _ h]
    rfl
  · intro rules approved tool args h
    rw [PermissionManager.check]
    cases hs : scanRules rules tool (argPathChain args) (args.command.getD "") with
    | none => exact ⟨"Auto mode enabled", rfl⟩
    | some d =>
      obtain ⟨r, hmem, hout⟩ := scanRules_some_mem _ _ _ _ _ hs
      rcases ruleOutcome_shape _ _ _ _ _ hout with ⟨m, rfl⟩ | rfl
      · exact absurd hout (h r hmem m)
      · exact ⟨"Auto-approved by rule", rfl⟩

/-- Witness for C3 at concrete modes, rules and argument maps. -/
theorem suckcode_C3_permission_gate_wit :
    PermissionManager.check ⟨DEFAULT_RULES, "strict", []⟩ "read" { path := some "/x" } =
      .allow "Auto-approved by rule"
    ∧ PermissionManager.check ⟨DEFAULT_RULES, "strict", []⟩ "write" { path := some "/x" } =
      .deny "Strict mode - requires explicit approval"
    ∧ ∃ reason,
        PermissionManager.check ⟨[⟨"read", "*", "allow"⟩], "auto", []⟩ "write"
          { path := some "/x" } = .allow reason := by
  refine ⟨?_, ?_, ?_⟩
  · exact suckcode_C3_permission_gate.1 "strict" [] { path := some "/x" } rfl
  · exact suckcode_C3_permission_gate.2.1 DEFAULT_RULES [] "write" { path := some "/x" }
      (by decide)
  · refine suckcode_C3_permission_gate.2.2 [⟨"read", "*", "allow"⟩] [] "write"
      { path := some "/x" } ?_
    intro r hr m
    simp only [List.mem_singleton] at hr
    subst hr
    simp [ruleOutcome, PermissionRule.matchesCall, argPathChain, pyOrS, truthyS]

/-- Counterexample to C9 as stated: in ask mode with no matching rule,
after `approve("write", {"save_path": "/x"})` the identical
`check("write", {"save_path": "/x"})` still returns the ask outcome —
`check` keys the session lookup on `path or file or save_path` (falling
back to `command`) while `approve` keys it on `path or file or command`,
so a call whose only target argument is `save_path` is never found. -/
theorem suckcode_C9_roundtrip_cex :
    (∀ r ∈ DEFAULT_RULES,
      ruleOutcome r "write"
        (argPathChain { savePath := some "/x" })
        (({ savePath := some "/x" } : Args).command.getD "") = none)
    ∧ (PermissionManager.approve ⟨DEFAULT_RULES, "ask", []⟩ "write"
        { savePath := some "/x" }).approved = ["write:"]
    ∧ PermissionManager.check
        (PermissionManager.approve ⟨DEFAULT_RULES, "ask", []⟩ "write"
          { savePath := some "/x" })
        "write" { savePath := some "/x" } = .ask := by
  refine ⟨by decide, rfl, rfl⟩

/-- Claim C9 (amended): in ask mode with no rule matching the call,
after `approve(tool, args)` a `check(tool, args)` with the identical
tool and argument map returns allow — provided the session key `check`
derives equals the one `approve` recorded (which holds whenever the map
carries a truthy `path` or `file`, or carries no `save_path`; a map
whose only target is `save_path` is the exception shown in the
counterexample). -/
theorem suckcode_C9_approve_roundtrip (pm : PermissionManager) (tool : String)
    (args : Args) (hmode : pm.mode = "ask")
    (hrules : ∀ r ∈ pm.rules,
      ruleOutcome r tool (argPathChain args) (args.command.getD "") = none)
    (hkey : checkKey tool args = approveKey tool args) :
    (pm.approve tool args).check tool args =
      .allow "Previously approved this session" := by
  have hs := scanRules_none pm.rules tool (argPathChain args) (args.command.getD "") hrules
  simp only [PermissionManager.approve, PermissionManager.check, hs, hmode]
  simp [hkey]

/-- Witness for C9 at a concrete approved call keyed by its path. -/
theorem suckcode_C9_approve_roundtrip_wit :
    (PermissionManager.approve ⟨DEFAULT_RULES, "ask", []⟩ "write"
      { path := some "/x" }).check "write" { path := some "/x" } =
      .allow "Previously approved this session" := by
  exact suckcode_C9_approve_roundtrip ⟨DEFAULT_RULES, "ask", []⟩ "write"
    { path := some "/x" } rfl (by decide) rfl

/-- Claim C4: in the tool-execution phase, whenever the gate returns
deny, or returns the ask outcome and the user refuses, the call's tool
is not invoked (its invocation record is `none`: neither the local
dispatcher nor the MCP client runs) and a tool-result message carrying
that call's id and a Blocked/Skipped text is produced.  `pm` ranges over
every gate state, so the statement covers every position in the phase
(each suffix of the call list starts from the state the earlier calls
left). -/
theorem suckcode_C4_denied_not_executed (pm : PermissionManager) (tc : ToolCallReq)
    (rest : List ToolCallReq) (ans : ToolCallReq → PromptAnswer)
    (mcpResult : String → String → Args → String)
    (localResult : String → Args → String) :
    (∀ reason, pm.check tc.name (tc.parsedArgs.getD emptyArgs) = .deny reason →
      (execPhase pm (tc :: rest) ans mcpResult localResult).2.head? =
        some (⟨tc.cid, "Blocked: " ++ reason⟩, none))
    ∧ (pm.check tc.name (tc.parsedArgs.getD emptyArgs) = .ask → ans tc = .no →
      (execPhase pm (tc :: rest) ans mcpResult localResult).2.head? =
        some (⟨tc.cid, "Skipped: user denied permission"⟩, none)) := by
  constructor
  · intro reason hd
    simp [execPhase, execStep, hd]
  · intro ha hno
    simp [execPhase, execStep, ha, promptModel, hno]

/-- Witness for C4: a strict-mode denial and an ask-mode refusal. -/
theorem suckcode_C4_denied_not_executed_wit :
    ((execPhase ⟨[], "strict", []⟩ [⟨"id1", "write", some { path := some "/x" }⟩]
        (fun _ => PromptAnswer.no) (fun _ _ _ => "m") (fun _ _ => "l")).2.head? =
      some (⟨"id1", "Blocked: Strict mode - requires explicit approval"⟩, none))
    ∧ ((execPhase ⟨[], "ask", []⟩ [⟨"id1", "write", some { path := some "/x" }⟩]
        (fun _ => PromptAnswer.no) (fun _ _ _ => "m") (fun _ _ => "l")).2.head? =
      some (⟨"id1", "Skipped: user denied permission"⟩, none)) := by
  constructor
  · exact (suckcode_C4_denied_not_executed ⟨[], "strict", []⟩
      ⟨"id1", "write", some { path := some "/x" }⟩ [] (fun _ => PromptAnswer.no)
      (fun _ _ _ => "m") (fun _ _ => "l")).1 "Strict mode - requires explicit approval" rfl
  · exact (suckcode_C4_denied_not_executed ⟨[], "ask", []⟩
      ⟨"id1", "write", some { path := some "/x" }⟩ [] (fun _ => PromptAnswer.no)
      (fun _ _ _ => "m") (fun _ _ => "l")).2 rfl rfl

theorem alookup_updA {α : Type} (l : List (String × α)) (n k : String) (f : α → α) :
    alookup (updA l n f) k = if k = n then (alookup l k).map f else alookup l k := by
  induction l with
  | nil => by_cases h : k = n <;> simp [updA, alookup, h]
  | cons p rest ih =>
    obtain ⟨k2, v⟩ := p
    by_cases h1 : k2 = n <;> by_cases h2 : k2 = k
    · subst h1; subst h2
      simp [updA, alookup]
    · subst h1
      have h2b : ¬ k = k2 := fun he => h2 he.symm
      simp [updA, alookup, h2, h2b]
    · subst h2
      simp [updA, alookup, h1, ih]
    · have h2b : ¬ k = k2 := fun he => h2 he.symm
      simp [updA, alookup, h1, h2, ih]

theorem alookup_updServer_self (st : MCPClient) (n : String) (f : MCPServer → MCPServer) :
    alookup (updServer st n f).servers n = (alookup st.servers n).map f := by
  unfold updServer
  show alookup (updA st.servers n f) n = _
  rw [alookup_updA]
  simp

theorem alookup_apop {α : Type} (l : List (String × α)) (k k2 : String) :
    alookup (apop l k) k2 = if k2 = k then none else alookup l k2 := by
  induction l with
  | nil => by_cases h : k2 = k <;> simp [apop, alookup, h]
  | cons p rest ih =>
    obtain ⟨pk, pv⟩ := p
    by_cases h1 : pk = k <;> by_cases h2 : pk = k2
    · subst h1; subst h2
      simpa [apop, List.filter_cons] using ih
    · subst h1
      have h2b : ¬ k2 = pk := fun he => h2 he.symm
      simp [apop, List.filter_cons, alookup, h2, h2b] at ih ⊢
      exact ih
    · subst h2
      simp [apop, List.filter_cons, alookup, h1]
    · by_cases h3 : k2 = k
      · subst h3
        simp [apop, List.filter_cons, alookup, h1, h2] at ih ⊢
        exact ih
      · simp [apop, List.filter_cons, alookup, h1, h2, h3] at ih ⊢
        exact ih

theorem alookup_foldl_apop {α : Type} (ks : List String) (l : List (String × α)) (k : String) :
    alookup (ks.foldl apop l) k = if k ∈ ks then none else alookup l k := by
  induction ks generalizing l with
  | nil => simp
  | cons k0 ks ih =>
    simp only [List.foldl_cons]
    rw [ih]
    by_cases h : k ∈ ks
    · simp [h]
    · by_cases h2 : k = k0
      · subst h2
        simp [h, alookup_apop]
      · simp [h, h2, alookup_apop]

theorem disconnect_of_lookup (st : MCPClient) (name : String) (srv : MCPServer)
    (h : alookup st.servers name = some srv) :
    (st.disconnect name).all_tools =
      (srv.tools.map (fun t => name ++ "/" ++ t.name)).foldl apop st.all_tools
    ∧ (st.disconnect name).all_resources =
      (srv.resources.map (fun r => r.uri)).foldl apop st.all_resources
    ∧ alookup (st.disconnect name).servers name =
      some { srv with process := none, tools := [], resources := [] } := by
  unfold MCPClient.disconnect
  rw [h]
  refine ⟨rfl, rfl, ?_⟩
  rw [alookup_updServer_self]
  show (alookup st.servers name).map _ = _
  rw [h]
  rfl

/-- Claim C6: a `connect` whose `initialize` response times out, is
absent, or carries an `error` field ends with the connection
disconnected (child terminated, no live process handle), adds no
entries to the shared tool or resource namespaces, and reports `False`
to the caller rather than raising. -/
theorem suckcode_C6_connect_failure (st : MCPClient) (name : String)
    (srv : MCPServer) (pid : Nat) (inbox : List JVal)
    (hsrv : alookup st.servers name = some srv)
    (ht : srv.tools = []) (hres : srv.resources = [])
    (hbad : inbox = [] ∨
      ∃ r rest2, inbox = r :: rest2 ∧ pyContainsStr r "error" = .ok true) :
    (st.connect name (some pid) inbox).1 = false
    ∧ ((st.connect name (some pid) inbox).2.1).all_tools = st.all_tools
    ∧ ((st.connect name (some pid) inbox).2.1).all_resources = st.all_resources
    ∧ (alookup ((st.connect name (some pid) inbox).2.1).servers name).map
        (fun s => s.process) = some none := by
  have h1 : alookup (updServer (updServer st name
      (fun s => { s with process := some pid })) name
      (fun s => { s with requestId := s.requestId + 1 })).servers name =
      some { srv with process := some pid, requestId := srv.requestId + 1 } := by
    rw [alookup_updServer_self, alookup_updServer_self, hsrv]
    rfl
  have hdisc := disconnect_of_lookup _ name _ h1
  have ht2 : ({ srv with process := some pid, requestId := srv.requestId + 1 } : MCPServer).tools = [] := ht
  have hr2 : ({ srv with process := some pid, requestId := srv.requestId + 1 } : MCPServer).resources = [] := hres
  have hAT : ((updServer (updServer st name (fun s => { s with process := some pid }))
      name (fun s => { s with requestId := s.requestId + 1 })).disconnect
        name).all_tools = st.all_tools := by
    rw [hdisc.1, ht2]
    rfl
  have hAR : ((updServer (updServer st name (fun s => { s with process := some pid }))
      name (fun s => { s with requestId := s.requestId + 1 })).disconnect
        name).all_resources = st.all_resources := by
    rw [hdisc.2.1, hr2]
    rfl
  have hPR : (alookup ((updServer (updServer st name
      (fun s => { s with process := some pid })) name
      (fun s => { s with requestId := s.requestId + 1 })).disconnect
        name).servers name).map (fun s => s.process) = some none := by
    rw [hdisc.2.2]
    rfl
  rcases hbad with rfl | ⟨r, rest2, rfl, herr⟩
  · unfold MCPClient.connect
    rw [hsrv]
    exact ⟨rfl, hAT, hAR, hPR⟩
  · unfold MCPClient.connect
    rw [hsrv]
    dsimp only [waitResponse]
    cases htr : pyTruthy r with
    | false => exact ⟨rfl, hAT, hAR, hPR⟩
    | true =>
      rw [herr]
      exact ⟨rfl, hAT, hAR, hPR⟩

/-- Witness for C6: a registered, undiscovered provider whose
`initialize` wait times out. -/
theorem suckcode_C6_connect_failure_wit :
    ((MCPClient.empty.add_server "A" "cmdA" [] []).connect "A" (some 7) []).1 = false
    ∧ (((MCPClient.empty.add_server "A" "cmdA" [] []).connect "A"
        (some 7) []).2.1).all_tools = []
    ∧ (alookup (((MCPClient.empty.add_server "A" "cmdA" [] []).connect "A"
        (some 7) []).2.1).servers "A").map (fun s => s.process) = some none := by
  have h := suckcode_C6_connect_failure (MCPClient.empty.add_server "A" "cmdA" [] [])
    "A" ⟨"A", "cmdA", [], [], none, [], [], 0⟩ 7 [] rfl rfl rfl (Or.inl rfl)
  exact ⟨h.1, h.2.1, h.2.2.2⟩

/-- Counterexample to C8 as stated: providers `A` and `B` both advertise
a resource with URI `u`; after connecting `A` then `B`, the shared
namespace entry for `u` belongs to `B` (dict insertion overwrote `A`'s),
yet disconnecting `A` pops the key `u`, so `B`'s entry — present before
the disconnect — is gone after it. -/
theorem suckcode_C8_disconnect_cex :
    (alookup clientABConnected.all_resources "u").map (fun r => r.server_name) =
      some "B"
    ∧ alookup ((clientABConnected.disconnect "A").all_resources) "u" = none := by
  exact ⟨rfl, rfl⟩

/-- Claim C8 (amended): disconnecting a connection removes from the
shared namespaces exactly the keys derived from its own recorded tools
(qualified `name/tool`) and resources (URIs), leaves the entry under
every other key unchanged — in particular every entry of another
provider whose qualified tool keys and URIs are disjoint from the
disconnected provider's — and clears the connection's process handle. -/
theorem suckcode_C8_disconnect_frame (st : MCPClient) (name : String)
    (srv : MCPServer) (h : alookup st.servers name = some srv) :
    (∀ k, k ∈ srv.tools.map (fun t => name ++ "/" ++ t.name) →
      alookup (st.disconnect name).all_tools k = none)
    ∧ (∀ k, k ∉ srv.tools.map (fun t => name ++ "/" ++ t.name) →
      alookup (st.disconnect name).all_tools k = alookup st.all_tools k)
    ∧ (∀ u, u ∈ srv.resources.map (fun r => r.uri) →
      alookup (st.disconnect name).all_resources u = none)
    ∧ (∀ u, u ∉ srv.resources.map (fun r => r.uri) →
      alookup (st.disconnect name).all_resources u = alookup st.all_resources u)
    ∧ (alookup (st.disconnect name).servers name).map (fun s => s.process) =
      some none := by
  have hd := disconnect_of_lookup st name srv h
  refine ⟨?_, ?_, ?_, ?_, ?_⟩
  · intro k hk
    rw [hd.1, alookup_foldl_apop]
    simp [hk]
  · intro k hk
    rw [hd.1, alookup_foldl_apop]
    simp [hk]
  · intro u hu
    rw [hd.2.1, alookup_foldl_apop]
    simp [hu]
  · intro u hu
    rw [hd.2.1, alookup_foldl_apop]
    simp [hu]
  · rw [hd.2.2]
    rfl

/-- Witness for C8 on the two-provider client: disconnecting `A`
removes `A/t1` and `u`, keeps `B/t2` and `v` unchanged, and clears `A`'s
process. -/
theorem suckcode_C8_disconnect_frame_wit :
    alookup (frameClient.disconnect "A").all_tools "A/t1" = none
    ∧ alookup (frameClient.disconnect "A").all_tools "B/t2" =
        alookup frameClient.all_tools "B/t2"
    ∧ alookup (frameClient.disconnect "A").all_resources "u" = none
    ∧ alookup (frameClient.disconnect "A").all_resources "v" =
        alookup frameClient.all_resources "v"
    ∧ (alookup (frameClient.disconnect "A").servers "A").map
        (fun s => s.process) = some none := by
  have h := suckcode_C8_disconnect_frame frameClient "A" frameSrvA rfl
  exact ⟨h.1 "A/t1" (by decide), h.2.1 "B/t2" (by decide),
    h.2.2.1 "u" (by decide), h.2.2.2.1 "v" (by decide), h.2.2.2.2⟩

/-- Counterexample to C1 as stated: with the two responses delivered in
reverse order of the request ids (the id-2 message first), the first
call — whose own request id is 1, as the third conjunct records — returns
the result carried by the id-2 response, and the second call returns the
id-1 response's result: each caller observes the response meant for the
other, because `_wait_response` pops the shared queue without consulting
ids. -/
theorem suckcode_C1_reversed_cex :
    ((stS.call_tool "s" "t" (.obj [])
        [respMsg 2 (.str "R2"), respMsg 1 (.str "R1")]).1 = .ok (.str "R2"))
    ∧ (((stS.call_tool "s" "t" (.obj [])
          [respMsg 2 (.str "R2"), respMsg 1 (.str "R1")]).2.1.call_tool "s" "t"
          (.obj [])
          ((stS.call_tool "s" "t" (.obj [])
            [respMsg 2 (.str "R2"), respMsg 1 (.str "R1")]).2.2)).1 =
        .ok (.str "R1"))
    ∧ ((alookup ((stS.call_tool "s" "t" (.obj [])
          [respMsg 2 (.str "R2"), respMsg 1 (.str "R1")]).2.1.servers) "s").map
        (fun s => s.requestId) = some 1)
    ∧ JVal.str "R2" ≠ JVal.str "R1" := by
  refine ⟨rfl, rfl, rfl, by simp⟩

/-- Claim C1 (amended): two sequential calls on a READY connection each
receive their own response when the provider delivers the responses in
the order the requests were issued; the correlation is positional only —
`_wait_response` pops the single shared queue and never consults the
message id — so reverse-order delivery hands each caller the other
call's response (see the counterexample). -/
theorem suckcode_C1_call_in_order (st : MCPClient) (sname tname : String)
    (srv : MCPServer) (pid : Nat) (argsJ v1 v2 : JVal) (i1 i2 : Int)
    (h : alookup st.servers sname = some srv) (hp : srv.process = some pid) :
    ((st.call_tool sname tname argsJ [respMsg i1 v1, respMsg i2 v2]).1 =
      .ok v1)
    ∧ ((((st.call_tool sname tname argsJ [respMsg i1 v1, respMsg i2 v2]).2.1).call_tool
        sname tname argsJ
        ((st.call_tool sname tname argsJ [respMsg i1 v1, respMsg i2 v2]).2.2)).1 =
      .ok v2) := by
  have h2 : alookup (updServer st sname
      (fun s => { s with requestId := s.requestId + 1 })).servers sname =
      some { srv with requestId := srv.requestId + 1 } := by
    rw [alookup_updServer_self, h]
    rfl
  unfold MCPClient.call_tool
  rw [h]
  dsimp only
  rw [hp]
  constructor
  · rfl
  · show (MCPClient.call_tool (updServer st sname
        (fun s => { s with requestId := s.requestId + 1 })) sname tname argsJ
        [respMsg i2 v2]).1 = Except.ok v2
    unfold MCPClient.call_tool
    rw [h2]
    dsimp only
    rw [hp]
    rfl

/-- Witness for C1 on the concrete connection with in-order delivery. -/
theorem suckcode_C1_call_in_order_wit :
    ((stS.call_tool "s" "t" (.obj [])
        [respMsg 1 (.str "A1"), respMsg 2 (.str "A2")]).1 = .ok (.str "A1"))
    ∧ (((stS.call_tool "s" "t" (.obj [])
          [respMsg 1 (.str "A1"), respMsg 2 (.str "A2")]).2.1).call_tool "s" "t"
          (.obj [])
          ((stS.call_tool "s" "t" (.obj [])
            [respMsg 1 (.str "A1"), respMsg 2 (.str "A2")]).2.2)).1 =
        .ok (.str "A2") := by
  exact suckcode_C1_call_in_order stS "s" "t" srvS 1 (.obj [])
    (.str "A1") (.str "A2") 1 2 rfl rfl

theorem runStreamAux_badjson (st : DecState) (pre post : List SseLine) :
    runStreamAux st (pre ++ SseLine.badJson :: post) =
      runStreamAux st (pre ++ post) := by
  induction pre generalizing st with
  | nil => rfl
  | cons l rest ih =>
    cases l with
    | blank => simpa only [List.cons_append, runStreamAux] using ih st
    | badJson => simpa only [List.cons_append, runStreamAux] using ih st
    | doneMark => rfl
    | payload j =>
      simp only [List.cons_append, runStreamAux]
      rcases hd : processDelta st j with ⟨evs, res⟩
      cases res with
      | ok st2 =>
        dsimp only
        simp only [List.append_eq]
        rw [ih st2]
      | error e => rfl

/-- Counterexample to C5 as stated: a payload that is valid JSON but not
well-formed for the expected delta shape — `{"choices": []}` — raises an
uncaught IndexError that aborts the stream: the later sentinel is never
reached and no done event is emitted (only `json.JSONDecodeError` is
caught by the decoder). -/
theorem suckcode_C5_malformed_cex :
    runStream [.payload (.obj [("choices", .arr [])]), .doneMark] =
      ([], some "IndexError") := rfl

/-- Claim C5 (amended): a data line whose payload is not valid JSON is
skipped silently: inserting such a line anywhere in the stream leaves
the decoder's entire event sequence and its completion unchanged, so
subsequent valid deltas still produce content/tool_calls events and the
final done event is still emitted.  (A payload that parses as JSON but
deviates from the delta shape can instead abort the stream — see the
counterexample.) -/
theorem suckcode_C5_badjson_skipped (pre post : List SseLine) :
    runStream (pre ++ SseLine.badJson :: post) = runStream (pre ++ post) :=
  runStreamAux_badjson ⟨"", []⟩ pre post

theorem pyListGet_natCast {α : Type} (l : List α) (n : Nat) :
    pyListGet l (n : Int) = l.get? n := by
  unfold pyListGet
  by_cases h : n < l.length
  · rw [if_pos]
    · simp
    · exact ⟨Int.ofNat_nonneg n, by exact_mod_cast h⟩
  · rw [if_neg, if_neg]
    · exact (List.get?_eq_none.mpr (by omega)).symm
    · rintro ⟨h1, h2⟩
      omega
    · rintro ⟨h1, h2⟩
      exact h (by exact_mod_cast h2)

theorem pyListSet_natCast {α : Type} (l : List α) (n : Nat) (v : α)
    (h : n < l.length) :
    pyListSet l (n : Int) v = some (l.set n v) := by
  unfold pyListSet
  rw [if_pos]
  · simp
  · exact ⟨Int.ofNat_nonneg n, by exact_mod_cast h⟩

theorem pyListModify_natCast {α : Type} (l : List α) (n : Nat) (f : α → α)
    (x : α) (hx : l.get? n = some x) :
    pyListModify l (n : Int) f = some (l.set n (f x)) := by
  obtain ⟨hlt, _⟩ := List.get?_eq_some.mp hx
  unfold pyListModify
  rw [pyListGet_natCast, hx]
  exact pyListSet_natCast l n (f x) hlt

theorem padSlots_of_le (sl : List SpecSlot) (n : Nat) (h : n ≤ sl.length) :
    padSlots sl n = sl := by
  unfold padSlots
  rw [Nat.sub_eq_zero_of_le h]
  simp

theorem assembleStep_of_get (sl : List SpecSlot) (f : Frag) (s : SpecSlot)
    (hget : sl.get? f.index = some s) :
    assembleStep sl f = sl.set f.index (mergeFrag s f) := by
  obtain ⟨hlt, _⟩ := List.get?_eq_some.mp hget
  unfold assembleStep
  rw [padSlots_of_le sl _ (by omega)]
  dsimp only
  rw [hget]

theorem assembleStep_append (sl : List SpecSlot) (f : Frag)
    (h : f.index = sl.length) :
    assembleStep sl f =
      (sl ++ [SpecSlot.emptyOne]).set f.index (mergeFrag SpecSlot.emptyOne f) := by
  unfold assembleStep padSlots
  rw [h, show sl.length + 1 - sl.length = 1 from by omega]
  dsimp only
  simp [List.get?_concat_length]

theorem assembleStep_length (sl : List SpecSlot) (f : Frag)
    (h : f.index ≤ sl.length) :
    (assembleStep sl f).length =
      if f.index = sl.length then sl.length + 1 else sl.length := by
  by_cases he : f.index = sl.length
  · rw [assembleStep_append sl f he, if_pos he]
    simp
  · have hlt : f.index < sl.length := by omega
    rw [assembleStep_of_get sl f _ (List.get?_eq_get hlt), if_neg he]
    simp

theorem except_bind_ok {e a b : Type} (x : a) (f : a → Except e b) :
    (Except.ok x : Except e a) >>= f = f x := rfl

theorem set_self_of_get? {α : Type} (l : List α) (n : Nat) (x : α)
    (h : l.get? n = some x) : l.set n x = l := by
  induction l generalizing n with
  | nil => simp at h
  | cons a rest ih =>
    cases n with
    | zero =>
      simp only [List.get?] at h
      injection h with h2
      simp [h2]
    | succ m =>
      simp only [List.get?] at h
      simp [List.set, ih m h]

theorem processTC_set (sl1 : List SpecSlot) (f : Frag) (s1 : SpecSlot)
    (hget : sl1.get? f.index = some s1) (hlt : f.index < sl1.length) :
    processTC (sl1.map toSlot) (fragToJVal f) =
      .ok ((sl1.set f.index (mergeFrag s1 f)).map toSlot) := by
  obtain ⟨n, fid, fname, farg⟩ := f
  dsimp only at hget hlt
  have hgetm : (sl1.map toSlot).get? n = some (toSlot s1) := by
    rw [List.get?_map, hget]
    rfl
  have hcond : ¬ ((sl1.length : Int) ≤ (n : Int)) := by
    exact_mod_cast Nat.not_le.mpr hlt
  cases fid with
  | none =>
    cases fname with
    | none =>
      cases farg with
      | none =>
        simp only [processTC, fragToJVal, fragFn]
        simp [pyGet, pySubStr, pyContainsStr, alookup, pyAdd, except_bind_ok,
          hcond, mergeFrag, toSlot]
        exact (set_self_of_get? _ _ _ hgetm).symm
      | some t =>
        simp only [processTC, fragToJVal, fragFn]
        simp [pyGet, pySubStr, pyContainsStr, alookup, pyAdd, except_bind_ok, hcond]
        rw [pyListGet_natCast, hgetm]
        dsimp only [toSlot]
        simp only [except_bind_ok]
        rw [pyListSet_natCast _ _ _ (by simpa using hlt)]
        simp [toSlot, mergeFrag]
    | some b =>
      cases farg with
      | none =>
        simp only [processTC, fragToJVal, fragFn]
        simp [pyGet, pySubStr, pyContainsStr, alookup, pyAdd, except_bind_ok, hcond]
        rw [pyListModify_natCast _ _ _ _ hgetm]
        dsimp only [toSlot]
        simp [except_bind_ok, toSlot, mergeFrag]
      | some t =>
        simp only [processTC, fragToJVal, fragFn]
        simp [pyGet, pySubStr, pyContainsStr, alookup, pyAdd, except_bind_ok, hcond]
        rw [pyListModify_natCast _ _ _ _ hgetm]
        dsimp only [toSlot]
        simp only [except_bind_ok]
        rw [pyListGet_natCast]
        rw [List.get?_set_eq_of_lt _ (by simpa using hlt)]
        dsimp only
        simp only [except_bind_ok]
        rw [pyListSet_natCast _ _ _ (by simpa using hlt)]
        simp [List.set_set, toSlot, mergeFrag]
  | some a =>
    cases fname with
    | none =>
      cases farg with
      | none =>
        simp only [processTC, fragToJVal, fragFn]
        simp [pyGet, pySubStr, pyContainsStr, alookup, pyAdd, except_bind_ok, hcond]
        rw [pyListModify_natCast _ _ _ _ hgetm]
        dsimp only [toSlot]
        simp [except_bind_ok, toSlot, mergeFrag]
      | some t =>
        simp only [processTC, fragToJVal, fragFn]
        simp [pyGet, pySubStr, pyContainsStr, alookup, pyAdd, except_bind_ok, hcond]
        rw [pyListModify_natCast _ _ _ _ hgetm]
        dsimp only [toSlot]
        simp only [except_bind_ok]
        rw [pyListGet_natCast]
        rw [List.get?_set_eq_of_lt _ (by simpa using hlt)]
        dsimp only
        simp only [except_bind_ok]
        rw [pyListSet_natCast _ _ _ (by simpa using hlt)]
        simp [List.set_set, toSlot, mergeFrag]
    | some b =>
      cases farg with
      | none =>
        simp only [processTC, fragToJVal, fragFn]
        simp [pyGet, pySubStr, pyContainsStr, alookup, pyAdd, except_bind_ok, hcond]
        rw [pyListModify_natCast _ _ _ _ hgetm]
        dsimp only [toSlot]
        simp only [except_bind_ok]
        rw [pyListModify_natCast _ _ _ _ (List.get?_set_eq_of_lt _ (by simpa using hlt))]
        dsimp only
        simp [except_bind_ok, List.set_set, toSlot, mergeFrag]
      | some t =>
        simp only [processTC, fragToJVal, fragFn]
        simp [pyGet, pySubStr, pyContainsStr, alookup, pyAdd, except_bind_ok, hcond]
        rw [pyListModify_natCast _ _ _ _ hgetm]
        dsimp only [toSlot]
        simp only [except_bind_ok]
        rw [pyListModify_natCast _ _ _ _ (List.get?_set_eq_of_lt _ (by simpa using hlt))]
        dsimp only
        simp only [except_bind_ok]
        rw [pyListGet_natCast]
        rw [List.get?_set_eq_of_lt _ (by simpa using hlt)]
        dsimp only
        simp only [except_bind_ok]
        rw [pyListSet_natCast _ _ _ (by simpa using hlt)]
        simp [List.set_set, toSlot, mergeFrag]

theorem processTC_grow_eq (sl : List SpecSlot) (f : Frag) (he : f.index = sl.length) :
    processTC (sl.map toSlot) (fragToJVal f) =
      processTC ((sl ++ [SpecSlot.emptyOne]).map toSlot) (fragToJVal f) := by
  obtain ⟨n, fid, fname, farg⟩ := f
  dsimp only at he
  subst he
  have hc1 : ((sl.length : Int) ≤ (sl.length : Int)) := le_refl _
  have hc2 : ¬ (((sl.length + 1 : Nat) : Int) ≤ (sl.length : Int)) := by
    exact_mod_cast by omega
  cases fid <;> cases fname <;> cases farg <;>
    · simp only [processTC, fragToJVal, fragFn]
      simp [pyGet, pySubStr, pyContainsStr, alookup, pyAdd, except_bind_ok,
        hc1, hc2, List.map_append, toSlot, SpecSlot.emptyOne, emptySlot]

theorem processTC_frag (sl : List SpecSlot) (f : Frag) (h : f.index ≤ sl.length) :
    processTC (sl.map toSlot) (fragToJVal f) =
      .ok ((assembleStep sl f).map toSlot) := by
  by_cases he : f.index = sl.length
  · rw [processTC_grow_eq sl f he, assembleStep_append sl f he]
    refine processTC_set (sl ++ [SpecSlot.emptyOne]) f SpecSlot.emptyOne ?_ ?_
    · rw [he]
      exact List.get?_concat_length sl _
    · rw [he]
      simp
  · have hlt : f.index < sl.length := by omega
    rw [assembleStep_of_get sl f _ (List.get?_eq_get hlt)]
    exact processTC_set sl f _ (List.get?_eq_get hlt) hlt

theorem foldTC (sl : List SpecSlot) (fs : List Frag)
    (h : noSkipFrom sl.length fs = true) :
    List.foldlM processTC (sl.map toSlot) (fs.map fragToJVal) =
      .ok ((assemble sl fs).map toSlot) := by
  induction fs generalizing sl with
  | nil => rfl
  | cons f fs ih =>
    rw [noSkipFrom] at h
    simp only [Bool.and_eq_true, decide_eq_true_eq] at h
    obtain ⟨hle, hrest⟩ := h
    simp only [List.map_cons, List.foldlM_cons]
    rw [processTC_frag sl f hle]
    simp only [except_bind_ok]
    have hrest2 : noSkipFrom (assembleStep sl f).length fs = true := by
      rw [assembleStep_length sl f hle]
      by_cases he : f.index = sl.length
      · simpa [he] using hrest
      · simpa [he] using hrest
    rw [ih (assembleStep sl f) hrest2]
    rfl

theorem processDelta_toolCalls (st : DecState) (fs : List Frag) :
    processDelta st (toolCallsChunk fs) =
      (match List.foldlM processTC st.calls (fs.map fragToJVal) with
        | .error e => ([], .error e)
        | .ok cs => ([], .ok { st with calls := cs })) := rfl

theorem noSkipFrom_append (n : Nat) (xs ys : List Frag) :
    noSkipFrom n (xs ++ ys) = (noSkipFrom n xs && noSkipFrom (growN n xs) ys) := by
  induction xs generalizing n with
  | nil => simp [noSkipFrom, growN]
  | cons f xs ih => simp [noSkipFrom, growN, ih, Bool.and_assoc]

theorem assemble_len (sl : List SpecSlot) (fs : List Frag)
    (h : noSkipFrom sl.length fs = true) :
    (assemble sl fs).length = growN sl.length fs := by
  induction fs generalizing sl with
  | nil => rfl
  | cons f fs ih =>
    rw [noSkipFrom] at h
    simp only [Bool.and_eq_true, decide_eq_true_eq] at h
    obtain ⟨hle, hrest⟩ := h
    have hlen := assembleStep_length sl f hle
    have hrest2 : noSkipFrom (assembleStep sl f).length fs = true := by
      rw [hlen]
      by_cases he : f.index = sl.length
      · simpa [he] using hrest
      · simpa [he] using hrest
    have hfin := ih (assembleStep sl f) hrest2
    rw [hlen] at hfin
    exact hfin

theorem fragStreamAux (dss : List (List Frag)) (sl : List SpecSlot)
    (h : noSkipFrom sl.length dss.join = true) :
    runStreamAux ⟨"", sl.map toSlot⟩ (dss.map toolCallsLine ++ [SseLine.doneMark]) =
      (endOfStream ⟨"", (assemble sl dss.join).map toSlot⟩, none) := by
  induction dss generalizing sl with
  | nil => rfl
  | cons fs dss ih =>
    have hj : (fs :: dss).join = fs ++ dss.join := rfl
    rw [hj, noSkipFrom_append] at h
    simp only [Bool.and_eq_true] at h
    obtain ⟨h1, h2⟩ := h
    show runStreamAux ⟨"", sl.map toSlot⟩
        (SseLine.payload (toolCallsChunk fs) ::
          (dss.map toolCallsLine ++ [SseLine.doneMark])) =
      (endOfStream ⟨"", (assemble sl (fs ++ dss.join)).map toSlot⟩, none)
    rw [runStreamAux, processDelta_toolCalls]
    dsimp only
    rw [foldTC sl fs h1]
    dsimp only
    have h2b : noSkipFrom (assemble sl fs).length dss.join = true := by
      rw [assemble_len sl fs h1]
      exact h2
    rw [ih (assemble sl fs) h2b]
    rw [show assemble sl (fs ++ dss.join) = assemble (assemble sl fs) dss.join from
      List.foldl_append _ _ _ _]
    simp

/-- Claim C2 (amended): a stream of deltas whose tool-call fragments
never skip a slot index (each fragment's index is at most the number of
slots already created — revisiting earlier slots out of order is
allowed) is fully assembled: the decoder is not aborted, and its final
tool_calls event carries exactly the specification-side assembly —
every fragment merged into its indexed slot, the list ordered by index —
followed by the done event.  A fragment that names a slot beyond the
next fresh index aborts the stream with an uncaught IndexError (see the
counterexample): the source grows the list by only one slot per
delta entry. -/
theorem suckcode_C2_frags_assemble (dss : List (List Frag))
    (h : noSkipFrom 0 dss.join = true) :
    runStream (dss.map toolCallsLine ++ [SseLine.doneMark]) =
      ((if (assemble [] dss.join).isEmpty then [] else
        [StreamEvent.toolCalls ((assemble [] dss.join).map toSlot)]) ++
        [StreamEvent.done ""], none) := by
  have hmain := fragStreamAux dss [] h
  have hiso : ((assemble [] dss.join).map toSlot).isEmpty =
      (assemble [] dss.join).isEmpty := by
    cases assemble [] dss.join <;> simp
  refine hmain.trans ?_
  unfold endOfStream
  rw [hiso]

/-- Counterexample to C2 as stated: a fragment carrying index 1 before
any fragment with index 0 does not grow the list to reach its slot — the
decoder appends a single fresh slot and then subscripts position 1 of a
one-element list, raising an uncaught IndexError that aborts the stream:
no tool_calls event and no done event are emitted. -/
theorem suckcode_C2_out_of_order_cex :
    runStream [toolCallsLine [⟨1, some "b", none, none⟩]] =
      ([], some "IndexError") := rfl

/-- Witness for C2 on a concrete stream: slot 0 then slot 1 are created,
and a later delta revisits slot 0 out of order; everything assembles. -/
theorem suckcode_C2_frags_assemble_wit :
    noSkipFrom 0 ([[⟨0, some "a", some "f", some "x"⟩,
        ⟨1, some "b", some "g", none⟩],
      [⟨0, none, none, some "y"⟩]] : List (List Frag)).join = true
    ∧ runStream (([[⟨0, some "a", some "f", some "x"⟩,
          ⟨1, some "b", some "g", none⟩],
        [⟨0, none, none, some "y"⟩]] : List (List Frag)).map toolCallsLine ++
        [SseLine.doneMark]) =
      ([StreamEvent.toolCalls [⟨.str "a", .str "f", .str "xy"⟩,
          ⟨.str "b", .str "g", .str ""⟩],
        StreamEvent.done ""], none) := by
  refine ⟨by decide, ?_⟩
  rw [suckcode_C2_frags_assemble _ (by decide)]
  rfl
